import Mathlib

/-!
Verification of the sphinxnotes-data deferred rendering engine.

This file gives a shallow embedding in Lean 4 of the data model and the
operations of the repository (src/src/sphinxnotes/data): the schema and
field validation, the context merge of the Jinja template renderer, the
four stage render chain of pending nodes, the markup renderer, and the
phase dispatch scans of the pipeline. The definitions are translated from
the Python sources; where a module of the repository is not present under
src (data.py, utils, render/extractx.py), the definition is modelled from
the specification and its doc comment says so.
-/

namespace SphinxData

/-- Values stored in the data and context dictionaries. The Python code
uses arbitrary Python values; claims only need strings, numbers and an
absent value, so a small closed type keeps every definition executable. -/
inductive Val where
  | s (v : String)
  | n (v : Int)
  | nothing
deriving DecidableEq, Repr

/-- Association list standing for a Python dict with string keys. Python
dict insertion order is kept: a fresh key is appended at the end. -/
abbrev Dict := List (String × Val)

/-- Python dict membership and indexing: the first entry whose key matches. -/
def dlookup (l : Dict) (k : String) : Option Val :=
  match l with
  | [] => none
  | (k0, v) :: t => if k0 = k then some v else dlookup t k

theorem dlookup_append (a b : Dict) (k : String) :
    dlookup (a ++ b) k = (dlookup a k).orElse (fun _ => dlookup b k) := by
  induction a with
  | nil => simp [dlookup]
  | cons h t ih =>
    obtain ⟨k0, v⟩ := h
    by_cases hk : k0 = k <;> simp [dlookup, hk, ih]

/-- Context merge of `Template._merge_ctx` (src template.py, lines 79-92).
The final context starts as the dict of the main data context (either
`Data.asdict()` or a dict copy, both giving the mapping of data fields);
then every extra entry whose key is not already present is appended, and
entries whose key is a data field are skipped. The second parameter of the
Python method is ignored by its body (it reads `ctx.extra`); it is kept
here for fidelity. -/
def Template.merge_ctx (main : Dict) (extraArg : Dict) (extra : Dict) : Dict :=
  let _ := extraArg
  extra.foldl
    (fun finalctx kv =>
      if (dlookup finalctx kv.1).isSome then finalctx else finalctx ++ [kv])
    main

theorem merge_ctx_foldl_lookup (extra main : Dict) (k : String) :
    dlookup (Template.merge_ctx main [] extra) k
      = (dlookup main k).orElse (fun _ => dlookup extra k) := by
  induction extra generalizing main with
  | nil =>
    show dlookup main k = (dlookup main k).orElse (fun _ => dlookup [] k)
    cases dlookup main k <;> rfl
  | cons kv rest ih =>
    obtain ⟨k0, v0⟩ := kv
    show dlookup (Template.merge_ctx
        (if (dlookup main k0).isSome then main else main ++ [(k0, v0)]) [] rest) k = _
    by_cases h0 : (dlookup main k0).isSome
    · rw [if_pos h0, ih]
      by_cases hk : k0 = k
      · subst hk
        obtain ⟨v, hv⟩ := Option.isSome_iff_exists.mp h0
        simp [hv, dlookup]
      · simp [dlookup, hk]
    · rw [if_neg h0, ih, dlookup_append]
      rw [Option.not_isSome_iff_eq_none] at h0
      by_cases hk : k0 = k
      · subst hk
        simp [h0, dlookup]
      · simp [dlookup, hk]

/-- C1: for every data context and extra context, the merged template
context gives data fields precedence: a lookup in the merged context
returns the data field when the key is a data field, and the extra entry
only otherwise. In particular every field of the data is in the merged
context unchanged, and an extra entry appears only when its key is not
already a data field. -/
theorem C1_merge_ctx_data_wins (main extraArg extra : Dict) (k : String) :
    dlookup (Template.merge_ctx main extraArg extra) k
      = (dlookup main k).orElse (fun _ => dlookup extra k) := by
  have h : Template.merge_ctx main extraArg extra = Template.merge_ctx main [] extra := rfl
  rw [h, merge_ctx_foldl_lookup]

/-- The precedence example of the spec: data x=1 with extra x=2, y=3
merges to x=1, y=3. -/
theorem merge_ctx_spec_example :
    Template.merge_ctx [("x", Val.n 1)] [] [("x", Val.n 2), ("y", Val.n 3)]
      = [("x", Val.n 1), ("y", Val.n 3)] := by decide

/-! ## Data model: raw data, fields, schemas (data.py) -/

/-- Raw data as built by `BaseDataDefineDirective.current_raw_data` and
`BaseDataDefineRole.current_raw_data` (src render/pipeline.py): an optional
name, a dict of attribute strings and optional content. -/
structure RawData where
  name : Option String
  attrs : List (String × String)
  content : Option String
deriving DecidableEq, Repr

/-- Modelled from the spec: module data.py is not under src. A Field is
a required flag together with a coercion rule; `Field.parse` fails when the
field is required and the value absent, or when the value fails the rule. -/
structure Field where
  required : Bool
  coerce : String → Option Val

/-- Modelled from the spec: `Field.parse(value) -> value` fails if required
and value absent, or value fails coercion. -/
def Field.parse (f : Field) (label : String) (v : Option String) :
    Except String (Option Val) :=
  match v with
  | none =>
    if f.required then .error ("required field missing: " ++ label) else .ok none
  | some sv =>
    match f.coerce sv with
    | some value => .ok (some value)
    | none => .error ("value fails coercion rule: " ++ label)

/-- Modelled from the spec: module data.py is not under src. A Schema has
an optional name Field, per-attribute Fields, an optional content Field,
and a strictness option for attributes not declared in the Schema. -/
structure Schema where
  name : Option Field
  attrs : List (String × Field)
  content : Option Field
  strict : Bool

/-- Modelled from the spec: output of `Schema.parse(RawData)`; all required
fields present and coerced. -/
structure ParsedData where
  name : Option Val
  attrs : List (String × Val)
  content : Option Val
deriving DecidableEq, Repr

/-- Lookup in the raw attribute dict (string values). -/
def rlookup (l : List (String × String)) (k : String) : Option String :=
  match l with
  | [] => none
  | (k0, v) :: t => if k0 = k then some v else rlookup t k

/-- Modelled from the spec: each declared attrs Field is applied to its
matching entry. -/
def parseDeclaredAttrs (fields : List (String × Field))
    (attrs : List (String × String)) : Except String (List (String × Val)) :=
  match fields with
  | [] => .ok []
  | (k, f) :: rest => do
    let v ← f.parse k (rlookup attrs k)
    let tail ← parseDeclaredAttrs rest attrs
    match v with
    | some value => return (k, value) :: tail
    | none => return tail

/-- Modelled from the spec: unknown attrs not declared in the Schema are
passed through unparsed in permissive mode and rejected in strict mode. -/
def passThroughAttrs (fields : List (String × Field))
    (attrs : List (String × String)) (strict : Bool) :
    Except String (List (String × Val)) :=
  match attrs with
  | [] => .ok []
  | (k, v) :: rest =>
    if (fields.find? (fun p => p.1 = k)).isSome then
      passThroughAttrs fields rest strict
    else if strict then
      .error ("unknown attribute rejected in strict mode: " ++ k)
    else do
      let tail ← passThroughAttrs fields rest strict
      return (k, Val.s v) :: tail

/-- Modelled from the spec: `Schema.parse(RawData) -> ParsedData` applies
the name Field to the name, each attrs Field to its matching entry and the
content Field to the content; pure, failing with a validation error naming
the failing field. A side of the record with no Field keeps the raw value. -/
def Schema.parse (s : Schema) (r : RawData) : Except String ParsedData := do
  let name ←
    match s.name with
    | some f => f.parse "name" r.name
    | none => pure (r.name.map Val.s)
  let declared ← parseDeclaredAttrs s.attrs r.attrs
  let passed ← passThroughAttrs s.attrs r.attrs s.strict
  let content ←
    match s.content with
    | some f => f.parse "content" r.content
    | none => pure (r.content.map Val.s)
  return { name := name, attrs := declared ++ passed, content := content }

/-- PendingData of data.py (not under src): an immutable (RawData, Schema)
pair, not yet validated; `parse` delegates to the Schema. -/
structure PendingData where
  raw : RawData
  schema : Schema

def PendingData.parse (pd : PendingData) : Except String ParsedData :=
  pd.schema.parse pd.raw

/-! ## Template values and phases (src template.py) -/

/-- Phase enum of src template.py: Parsing (immediate, the default),
Parsed and PostTranform (spelling kept from the source). -/
inductive Phase where
  | Parsing
  | Parsed
  | PostTranform
deriving DecidableEq, Repr

def Phase.default : Phase := Phase.Parsing

/-- Template of src template.py: text, target phase, debug flag. -/
structure Template where
  text : String
  phase : Phase
  debug : Bool

/-! ## Doctree nodes -/

/-- Doctree nodes. Reports (class Report of utils, a system_message
subclass used as the DebugReport of the spec) carry a title, a severity
level, the text and code entries appended to them, and child nodes added
with the += operator. The problematic node is the inline reference a
report leaves behind when it is relocated. -/
inductive Node where
  | text (s : String)
  | paragraph (children : List Node)
  | report (title : String) (level : String) (entries : List String)
      (childNodes : List Node)
  | problematic (title : String)
  | other (kind : String) (children : List Node)

mutual

/-- Structural copy, the value semantics of docutils `Node.deepcopy`. -/
def Node.deepcopy : Node → Node
  | .text s => .text s
  | .paragraph cs => .paragraph (Node.deepcopyList cs)
  | .report t l e cn => .report t l e (Node.deepcopyList cn)
  | .problematic t => .problematic t
  | .other k cs => .other k (Node.deepcopyList cs)

/-- Structural copy of a child list, one node at a time. -/
def Node.deepcopyList : List Node → List Node
  | [] => []
  | c :: cs => c.deepcopy :: Node.deepcopyList cs

end

mutual

/-- A deep copy is value-equal to the original node. -/
theorem Node.deepcopy_eq : (n : Node) → n.deepcopy = n
  | .text _ => by rw [Node.deepcopy]
  | .problematic _ => by rw [Node.deepcopy]
  | .paragraph cs => by rw [Node.deepcopy, Node.deepcopyList_eq cs]
  | .report t l e cn => by rw [Node.deepcopy, Node.deepcopyList_eq cn]
  | .other k cs => by rw [Node.deepcopy, Node.deepcopyList_eq cs]

/-- A deep copy of a child list is value-equal to the original list. -/
theorem Node.deepcopyList_eq : (l : List Node) → Node.deepcopyList l = l
  | [] => by rw [Node.deepcopyList]
  | c :: cs => by rw [Node.deepcopyList, Node.deepcopy_eq c, Node.deepcopyList_eq cs]

end

/-! ## Report helpers and the extra context merge -/

mutual

/-- Simple rendering of a node to text, standing for docutils pformat
(the exact formatting of the debug entries is immaterial). -/
def Node.pformat : Node → String
  | .text s => "text(" ++ s ++ ")"
  | .paragraph cs => "paragraph(" ++ Node.pformatList cs ++ ")"
  | .report t l _ cn => "report(" ++ t ++ " " ++ l ++ " " ++ Node.pformatList cn ++ ")"
  | .problematic t => "problematic(" ++ t ++ ")"
  | .other k cs => k ++ "(" ++ Node.pformatList cs ++ ")"

/-- Text of a list of nodes, one after the other. -/
def Node.pformatList : List Node → String
  | [] => ""
  | c :: cs => c.pformat ++ " " ++ Node.pformatList cs

end

/-- Whether a node is a Report (the DebugReport of the spec). -/
def Node.isReport : Node → Bool
  | .report _ _ _ _ => true
  | _ => false

/-- Whether a node is a Report with no content at all. -/
def Node.isEmptyReport : Node → Bool
  | .report _ _ [] [] => true
  | _ => false

/-- Modelled from usage (class Reporter of utils is not under src):
`Reporter(n).clear_empty()` drops the report children that have no
content. -/
def clearEmptyReports (ns : List Node) : List Node :=
  ns.filter (fun n => !n.isEmptyReport)

/-- Modelled from the spec: render/extractx.py (ExtraContextGenerator) is
not under src. Supplemental variables are merged into the accumulated
extra context under the first-write-wins rule: a key already set by an
earlier phase is never overwritten. -/
def mergeExtra (extra new : Dict) : Dict :=
  new.foldl
    (fun acc kv => if (dlookup acc kv.1).isSome then acc else acc ++ [kv])
    extra

/-! ## The pending node and its render chain (src render/datanodes.py) -/

/-- The context data a template is rendered with: either a ParsedData or a
plain dict (the two non-pending alternatives of the data field of
pending_node). -/
inductive CtxData where
  | parsed (d : ParsedData)
  | dict (d : Dict)
deriving DecidableEq, Repr

/-- The pending node of src render/datanodes.py: the data to be rendered
(a not yet validated PendingData, or an already parsed or plain mapping),
the accumulated extra context, the template, the inline flag, the children
attached to the node, and the markup text hooks (the only hook list whose
return value feeds back into the chain; the raw data, parsed data and
rendered node hooks are observational). -/
structure pending_node where
  data : PendingData ⊕ CtxData
  extra : Dict
  template : Template
  inline : Bool
  children : List Node
  markupTextHooks : List (String → String)

/-- The rendered node of src render/datanodes.py: the data used when
rendering (set once validation has succeeded or been skipped) and the
children of the container. -/
structure rendered_node where
  data : Option CtxData
  children : List Node

/-- Debug entry text for a raw data value, standing for pformat. -/
def reprRaw (r : RawData) : String :=
  reprStr r

/-- Debug entry text for a schema, standing for pformat (Fields hold
coercion functions, so only the declared keys are shown). -/
def reprSchema (s : Schema) : String :=
  "Schema(name declared: " ++ toString s.name.isSome ++
    ", attrs: " ++ toString (s.attrs.map Prod.fst) ++
    ", content declared: " ++ toString s.content.isSome ++ ")"

/-- Debug entry text for the context data, standing for pformat. -/
def reprCtxData (d : CtxData) : String :=
  reprStr d

/-- Debug entry text for the keys of the extra context. -/
def reprKeys (l : Dict) : String :=
  toString (l.map Prod.fst)

/-- Stages 2 to 4 of the render chain of `pending_node.render` (src
render/datanodes.py): render the template with the context data and the
extra context, apply the markup text hooks, render the markup text to
nodes, and assemble the container; each failure degrades to a report.
The template renderer (render/template.py, not under src) and the markup
renderer of the host are passed as functions. -/
def pending_node.renderTail (cfgRenderDebug : Bool)
    (tmplRender : String → CtxData → Dict → Except String String)
    (markupRender : String → Bool → Except String (List Node × List Node))
    (p : pending_node) (copied : List Node) (entries0 : List String)
    (d : CtxData) : rendered_node :=
  let entries1 := entries0 ++
    ["Parsed data:", reprCtxData d, "Extra context (just key):",
     reprKeys p.extra, "Template:", p.template.text]
  match tmplRender p.template.text d p.extra with
  | .error e =>
    { data := some d,
      children := copied ++
        [Node.report "Render Debug Report" "DEBUG"
          (entries1 ++ ["Failed to render Jinja template:", e]) []] }
  | .ok markup0 =>
    let markup := p.markupTextHooks.foldl (fun m h => h m) markup0
    let entries2 := entries1 ++ ["Rendered markup text:", markup]
    match markupRender markup p.inline with
    | .error e =>
      { data := some d,
        children := copied ++
          [Node.report "Render Debug Report" "DEBUG"
            (entries2 ++
              [(if p.inline then
                  "Failed to render markup text to inline nodes:"
                else
                  "Failed to render markup text to nodes:"), e]) []] }
    | .ok (ns, msgs) =>
      let entries3 := entries2 ++
        ["Rendered nodes (inline: " ++ toString p.inline ++ "):",
         Node.pformatList ns] ++
        (if msgs.isEmpty then [] else ["Systemd messages:"])
      let rep := Node.report "Render Debug Report" "DEBUG" entries3 msgs
      { data := some d,
        children := copied ++ ns ++
          (if p.template.debug || cfgRenderDebug then [rep] else []) }

/-- The core render chain of `pending_node.render` (src
render/datanodes.py). A fresh container copies the attributes and deep
copies of the children of the pending node (empty reports among the copies
cleared), then: 1. validate the data when it is still a PendingData,
degrading to a report holding the failure on a validation error; 2. and
3. and 4. continue in `pending_node.renderTail`. The process wide debug
flag Config.render_debug (config.py, not under src) is the first
parameter. -/
def pending_node.render (cfgRenderDebug : Bool)
    (tmplRender : String → CtxData → Dict → Except String String)
    (markupRender : String → Bool → Except String (List Node × List Node))
    (p : pending_node) : rendered_node :=
  let copied := clearEmptyReports (Node.deepcopyList p.children)
  match p.data with
  | .inl pd =>
    let entries0 :=
      ["Raw data:", reprRaw pd.raw, "Schema:", reprSchema pd.schema]
    match pd.parse with
    | .error e =>
      { data := none,
        children := copied ++
          [Node.report "Render Debug Report" "DEBUG"
            (entries0 ++ ["Failed to parse raw data:", e]) []] }
    | .ok d =>
      pending_node.renderTail cfgRenderDebug tmplRender markupRender p copied
        entries0 (CtxData.parsed d)
  | .inr d =>
    pending_node.renderTail cfgRenderDebug tmplRender markupRender p copied
      [] d

/-! ## Inline flattening (src render/datanodes.py, rendered_node.inline) -/

/-- Title of a report node (used by the problematic reference a report
leaves behind; class Report of utils is not under src, modelled from its
use). -/
def Node.reportTitle : Node → String
  | .report t _ _ _ => t
  | _ => ""

/-- Children of a node (docutils node.children). -/
def Node.childrenOf : Node → List Node
  | .text _ => []
  | .paragraph cs => cs
  | .report _ _ _ cn => cn
  | .problematic _ => []
  | .other _ cs => cs

/-- The inline flatten of `rendered_node.inline` (src render/datanodes.py,
lines 204 to 217): report children are system_message subclasses, not
inline nodes, so they are removed, a problematic reference is appended for
each, and the resulting children are returned together with the removed
reports, which `replace_self_inline` relocates to the nearest enclosing
block element. The children themselves are returned as they are. -/
def rendered_node.inline (r : rendered_node) : List Node × List Node :=
  let reports := r.children.filter Node.isReport
  let rest := r.children.filter (fun n => !n.isReport)
  (rest ++ reports.map (fun rep => Node.problematic rep.reportTitle), reports)

/-! ## The markup renderer (src renderer.py) -/

/-- `Renderer._safe_render` (src renderer.py, lines 93 to 100): call the
parse function of the host; on any exception return a single error report
carrying the failing text (appended with report.code) instead of
propagating. The title keeps the spelling of the source. -/
def Renderer.safe_render {E : Type} (fn : String → Except E (List Node))
    (text : String) : List Node :=
  match fn text with
  | .ok ns => ns
  | .error _ =>
    [Node.report "Failed to render the follwing text to nodes" "ERROR"
      [text] []]

/-- `Renderer._safe_render_inline` (src renderer.py, lines 102 to 120):
call the inline parse function of the host; on any exception return a
single error report carrying the failing text; on success convert each
system_message to a warning report holding the children of the message and
append these reports to the returned node list. -/
def Renderer.safe_render_inline {E : Type}
    (fn : String → Except E (List Node × List Node)) (text : String) :
    List Node :=
  match fn text with
  | .error _ =>
    [Node.report "Failed to render the follwing text to inline nodes" "ERROR"
      [text] []]
  | .ok (ns, msgs) =>
    ns ++ msgs.map
      (fun msg =>
        Node.report "Parser generated message:" "WARNING" [] msg.childrenOf)

/-- The SphinxTransform branch of `Renderer._render_inline` (src
renderer.py, lines 82 to 89): a post transform checkpoint only exposes a
block parser, so inline mode is emulated by the normal block render and,
when the first rendered node is a paragraph, unwrapping its children. -/
def Renderer.render_inline_via_block {E : Type}
    (parseBlock : String → Except E (List Node)) (text : String) :
    List Node :=
  let ns := Renderer.safe_render parseBlock text
  match ns with
  | Node.paragraph cs :: _ => cs
  | _ => ns

/-! ## Phase dispatch (src render/pipeline.py) -/

/-- A slot of the document tree as the phase dispatch scans see it: a
pending node, a rendered node that replaced one, the spliced inline nodes
and relocated messages of an inline replacement, or any other element.
The scans of src render/pipeline.py walk document.findall(pending_data)
and replace matched nodes in place; the slot list abstracts the positions
the scans visit. -/
inductive Slot where
  | pend (p : pending_node)
  | rendered (r : rendered_node)
  | inlineGroup (ns : List Node) (msgs : List Node)
  | elem (n : Node)

/-- Whether a slot still holds a pending node. -/
def Slot.isPend : Slot → Bool
  | .pend _ => true
  | _ => false

/-- One step of a phase bound scan (`_ParsedHook.run` for Phase.Parsed,
`_ResolvingHook.apply` for Phase.PostTranform, src render/pipeline.py):
for a pending node the ExtraContextGenerator of the checkpoint runs first,
regardless of the phase of the node (genPhase, merged first write wins);
then, only when the phase of its template equals the bound phase, the
anytime generator runs (genAny), the render chain executes, and the node
is replaced by the rendered result (flattened when the node is inline).
Every other slot is left untouched. -/
def scanSlot (phase : Phase) (genPhase genAny : pending_node → Dict)
    (cfgRenderDebug : Bool)
    (tmplRender : String → CtxData → Dict → Except String String)
    (markupRender : String → Bool → Except String (List Node × List Node)) :
    Slot → Slot
  | .pend p =>
    let p1 : pending_node := { p with extra := mergeExtra p.extra (genPhase p) }
    if p1.template.phase ≠ phase then .pend p1
    else
      let p2 : pending_node :=
        { p1 with extra := mergeExtra p1.extra (genAny p1) }
      let r := pending_node.render cfgRenderDebug tmplRender markupRender p2
      if p2.inline then
        .inlineGroup (rendered_node.inline r).1 (rendered_node.inline r).2
      else
        .rendered r
  | s => s

/-- A phase bound scan over the whole document. -/
def scan (phase : Phase) (genPhase genAny : pending_node → Dict)
    (cfgRenderDebug : Bool)
    (tmplRender : String → CtxData → Dict → Except String String)
    (markupRender : String → Bool → Except String (List Node × List Node))
    (doc : List Slot) : List Slot :=
  doc.map (scanSlot phase genPhase genAny cfgRenderDebug tmplRender markupRender)

/-! ## Define time dispatch (src render/pipeline.py, BaseDataDefiner) -/

/-- `BaseDataDefiner.build_pending_node` (src render/pipeline.py): build
the pending node from the data and the template, then run the parsing
phase ExtraContextGenerator (genParsing). The inline flag is set by the
process_pending_node override of the authoring surface (False for the
directive form, True for the role form), passed here as a parameter. -/
def build_pending_node (data : PendingData ⊕ CtxData) (tmpl : Template)
    (inl : Bool) (genParsing : pending_node → Dict) : pending_node :=
  let pending : pending_node :=
    { data := data, extra := [], template := tmpl, inline := inl,
      children := [], markupTextHooks := [] }
  { pending with extra := mergeExtra pending.extra (genParsing pending) }

/-- `BaseDataDefiner.render_pending_node` (src render/pipeline.py): run
the anytime ExtraContextGenerator, then the render chain. -/
def render_pending_node (genAny : pending_node → Dict)
    (cfgRenderDebug : Bool)
    (tmplRender : String → CtxData → Dict → Except String String)
    (markupRender : String → Bool → Except String (List Node × List Node))
    (p : pending_node) : rendered_node :=
  pending_node.render cfgRenderDebug tmplRender markupRender
    { p with extra := mergeExtra p.extra (genAny p) }

/-- `BaseDataDefiner.render_or_pass` (src render/pipeline.py, lines 133 to
148): build the pending node from the RawData, Schema and Template of the
authoring surface; when the phase of the template is not Phase.Parsing
return the pending node, otherwise render it now and return the rendered
result. -/
def render_or_pass (raw : RawData) (schema : Schema) (tmpl : Template)
    (inl : Bool) (genParsing genAny : pending_node → Dict)
    (cfgRenderDebug : Bool)
    (tmplRender : String → CtxData → Dict → Except String String)
    (markupRender : String → Bool → Except String (List Node × List Node)) :
    pending_node ⊕ rendered_node :=
  let pending :=
    build_pending_node (.inl { raw := raw, schema := schema }) tmpl inl
      genParsing
  if pending.template.phase ≠ Phase.Parsing then .inl pending
  else
    .inr (render_pending_node genAny cfgRenderDebug tmplRender markupRender
      pending)

/-! ## Helper lemmas about the render chain -/

/-- Whatever the later stages do, the data field of the result of the tail
of the render chain is the context data that validation produced. -/
theorem renderTail_data (cfg : Bool)
    (tr : String → CtxData → Dict → Except String String)
    (mr : String → Bool → Except String (List Node × List Node))
    (p : pending_node) (copied : List Node) (entries0 : List String)
    (d : CtxData) :
    (pending_node.renderTail cfg tr mr p copied entries0 d).data = some d := by
  unfold pending_node.renderTail
  dsimp only
  split
  · rfl
  · split
    · rfl
    · rfl

/-- The children of the result of the tail of the render chain always
start with the copied children of the pending node. -/
theorem renderTail_children_first (cfg : Bool)
    (tr : String → CtxData → Dict → Except String String)
    (mr : String → Bool → Except String (List Node × List Node))
    (p : pending_node) (copied : List Node) (entries0 : List String)
    (d : CtxData) :
    ∃ produced,
      (pending_node.renderTail cfg tr mr p copied entries0 d).children
        = copied ++ produced := by
  unfold pending_node.renderTail
  dsimp only
  split
  · exact ⟨_, rfl⟩
  · split
    · exact ⟨_, rfl⟩
    · exact ⟨_, List.append_assoc _ _ _⟩

/-- C2: for every placeholder whose data is an unparsed (RawData, Schema)
pair and that carries no children (the pipeline builds pending nodes with
an empty child list), when Schema.parse fails with a validation error the
render chain does not propagate the error: the returned rendered result
holds exactly one debug report describing the failure and zero content
elements, its data field is unset, and the template render and markup
parse stages are not executed: the result does not depend on the template
renderer, the markup renderer or the debug configuration. -/
theorem C2_validation_failure_degrades (cfg cfg2 : Bool)
    (tr tr2 : String → CtxData → Dict → Except String String)
    (mr mr2 : String → Bool → Except String (List Node × List Node))
    (p : pending_node) (pd : PendingData) (e : String)
    (hdata : p.data = Sum.inl pd) (hch : p.children = [])
    (hfail : pd.parse = .error e) :
    (pending_node.render cfg tr mr p).children =
      [Node.report "Render Debug Report" "DEBUG"
        ["Raw data:", reprRaw pd.raw, "Schema:", reprSchema pd.schema,
         "Failed to parse raw data:", e] []] ∧
    (pending_node.render cfg tr mr p).data = none ∧
    pending_node.render cfg tr mr p = pending_node.render cfg2 tr2 mr2 p := by
  unfold pending_node.render
  rw [hdata, hch]
  dsimp only
  rw [hfail]
  refine ⟨?_, rfl, rfl⟩
  simp [clearEmptyReports, Node.deepcopyList]

/-- Schema of the failure scenario of the spec: a required name. -/
def wSchemaReq : Schema :=
  { name := some { required := true, coerce := fun s => some (Val.s s) },
    attrs := [], content := none, strict := false }

/-- Raw data of the failure scenario of the spec: name absent. -/
def wRawNoName : RawData := { name := none, attrs := [], content := none }

/-- A pending node holding the failure scenario data. -/
def wPendingFail : pending_node :=
  { data := Sum.inl { raw := wRawNoName, schema := wSchemaReq },
    extra := [], template := { text := "t", phase := .Parsing, debug := false },
    inline := false, children := [], markupTextHooks := [] }

/-- A trivial template renderer used by concrete witnesses. -/
def wTmplRender : String → CtxData → Dict → Except String String :=
  fun t _ _ => .ok t

/-- A trivial markup renderer used by concrete witnesses. -/
def wMarkupRender : String → Bool → Except String (List Node × List Node) :=
  fun t _ => .ok ([Node.paragraph [Node.text t]], [])

theorem C2_validation_failure_degrades_witness :
    (pending_node.render false wTmplRender wMarkupRender wPendingFail).children =
      [Node.report "Render Debug Report" "DEBUG"
        ["Raw data:", reprRaw wRawNoName, "Schema:", reprSchema wSchemaReq,
         "Failed to parse raw data:", "required field missing: name"] []] ∧
    (pending_node.render false wTmplRender wMarkupRender wPendingFail).data
      = none ∧
    pending_node.render false wTmplRender wMarkupRender wPendingFail
      = pending_node.render true
          (fun _ _ _ => .error "tmpl") (fun _ _ => .error "markup")
          wPendingFail :=
  C2_validation_failure_degrades false true wTmplRender
    (fun _ _ _ => .error "tmpl") wMarkupRender (fun _ _ => .error "markup")
    wPendingFail { raw := wRawNoName, schema := wSchemaReq }
    "required field missing: name" rfl rfl rfl

/-- C9: whenever the validate stage succeeds, or was skipped because the
data was already parsed or plain, the data field of the returned rendered
node equals the parsed data, whatever the template render and markup parse
stages then do (both renderers are universally quantified, so the equation
holds even when a later stage fails and the chain short circuits). -/
theorem C9_data_survives_later_failures (cfg : Bool)
    (tr : String → CtxData → Dict → Except String String)
    (mr : String → Bool → Except String (List Node × List Node))
    (p : pending_node) :
    (∀ pd d, p.data = Sum.inl pd → pd.parse = .ok d →
      (pending_node.render cfg tr mr p).data = some (CtxData.parsed d)) ∧
    (∀ d, p.data = Sum.inr d →
      (pending_node.render cfg tr mr p).data = some d) := by
  constructor
  · intro pd d hdata hok
    unfold pending_node.render
    rw [hdata]
    dsimp only
    rw [hok]
    exact renderTail_data cfg tr mr p _ _ _
  · intro d hdata
    unfold pending_node.render
    rw [hdata]
    dsimp only
    exact renderTail_data cfg tr mr p _ _ _

/-- A schema accepting the scenario data, with a required name. -/
def wSchemaOk : Schema :=
  { name := some { required := true, coerce := fun s => some (Val.s s) },
    attrs := [], content := none, strict := false }

/-- Raw data with the required name present. -/
def wRawNamed : RawData := { name := some "Widget", attrs := [], content := none }

/-- A pending node whose validation succeeds. -/
def wPendingOk : pending_node :=
  { data := Sum.inl { raw := wRawNamed, schema := wSchemaOk },
    extra := [], template := { text := "t", phase := .Parsing, debug := false },
    inline := false, children := [], markupTextHooks := [] }

/-- A pending node whose data is a plain mapping. -/
def wPendingDict : pending_node :=
  { data := Sum.inr (CtxData.dict [("x", Val.n 1)]),
    extra := [], template := { text := "t", phase := .Parsing, debug := false },
    inline := false, children := [], markupTextHooks := [] }

theorem C9_data_survives_later_failures_witness :
    (pending_node.render false (fun _ _ _ => .error "tmpl") wMarkupRender
        wPendingOk).data
      = some (CtxData.parsed
          { name := some (Val.s "Widget"), attrs := [], content := none }) ∧
    (pending_node.render false (fun _ _ _ => .error "tmpl") wMarkupRender
        wPendingDict).data
      = some (CtxData.dict [("x", Val.n 1)]) :=
  ⟨(C9_data_survives_later_failures false (fun _ _ _ => .error "tmpl")
      wMarkupRender wPendingOk).1
      { raw := wRawNamed, schema := wSchemaOk }
      { name := some (Val.s "Widget"), attrs := [], content := none } rfl rfl,
   (C9_data_survives_later_failures false (fun _ _ _ => .error "tmpl")
      wMarkupRender wPendingDict).2 (CtxData.dict [("x", Val.n 1)]) rfl⟩

/-- C10: the render chain never touches the pending placeholder itself (in
this embedding it is a pure function of the placeholder); the children of
the placeholder are deep copied, the copies are value-equal to the
originals, and they sit in the rendered node before any newly produced
element. The hypothesis excludes children that are empty reports, which
the chain additionally clears from the copies. -/
theorem C10_children_copied_first (cfg : Bool)
    (tr : String → CtxData → Dict → Except String String)
    (mr : String → Bool → Except String (List Node × List Node))
    (p : pending_node) (h : ∀ n ∈ p.children, n.isEmptyReport = false) :
    Node.deepcopyList p.children = p.children ∧
    ∃ produced,
      (pending_node.render cfg tr mr p).children = p.children ++ produced := by
  have hcopy : Node.deepcopyList p.children = p.children :=
    Node.deepcopyList_eq p.children
  refine ⟨hcopy, ?_⟩
  have hclear : clearEmptyReports (Node.deepcopyList p.children) = p.children := by
    rw [hcopy]
    unfold clearEmptyReports
    rw [List.filter_eq_self]
    intro n hn
    rw [h n hn]
    rfl
  unfold pending_node.render
  rw [hclear]
  dsimp only
  split
  · split
    · exact ⟨_, rfl⟩
    · exact renderTail_children_first cfg tr mr p _ _ _
  · exact renderTail_children_first cfg tr mr p _ _ _

/-- A pending node with a plain data mapping and one child. -/
def wPendingChild : pending_node :=
  { data := Sum.inr (CtxData.dict []),
    extra := [], template := { text := "t", phase := .Parsing, debug := false },
    inline := false, children := [Node.text "kept"], markupTextHooks := [] }

theorem C10_children_copied_first_witness :
    Node.deepcopyList [Node.text "kept"] = [Node.text "kept"] ∧
    ∃ produced,
      (pending_node.render false wTmplRender wMarkupRender
          wPendingChild).children
        = [Node.text "kept"] ++ produced :=
  C10_children_copied_first false wTmplRender wMarkupRender wPendingChild
    (by
      intro n hn
      cases hn with
      | head => rfl
      | tail _ h => cases h)

/-! ## First write wins for the extra context -/

/-- Lookup after one extra context merge: an existing key keeps its value
and a new key takes the value of the supplemental variables. -/
theorem mergeExtra_lookup (extra new : Dict) (k : String) :
    dlookup (mergeExtra extra new) k
      = (dlookup extra k).orElse (fun _ => dlookup new k) :=
  merge_ctx_foldl_lookup new extra k

/-- C3: for every placeholder and every key of its accumulated extra
context, the value seen at render time (the render chain reads the
accumulated extra dict as it stands) is the value written by the earliest
phase that set the key: however many later checkpoint generations are
merged, a key an earlier checkpoint already set keeps its value. -/
theorem C3_first_write_wins (extra : Dict) (phases : List Dict) (k : String)
    (v : Val) (h : dlookup extra k = some v) :
    dlookup (phases.foldl mergeExtra extra) k = some v := by
  induction phases generalizing extra with
  | nil => exact h
  | cons new rest ih =>
    exact ih (mergeExtra extra new) (by rw [mergeExtra_lookup, h]; rfl)

theorem C3_first_write_wins_witness :
    dlookup (List.foldl mergeExtra [("k", Val.n 1)] [[("k", Val.n 2)]]) "k"
      = some (Val.n 1) :=
  C3_first_write_wins [("k", Val.n 1)] [[("k", Val.n 2)]] "k" (Val.n 1)
    (by decide)

/-! ## Phase dispatch theorems -/

/-- A scan step on a pending node whose phase matches the bound phase
replaces it: the resulting slot is never a pending node. -/
theorem scanSlot_matched_not_pend (phase : Phase)
    (g1 g2 : pending_node → Dict) (cfg : Bool)
    (tr : String → CtxData → Dict → Except String String)
    (mr : String → Bool → Except String (List Node × List Node))
    (p : pending_node) (hphase : p.template.phase = phase) :
    (scanSlot phase g1 g2 cfg tr mr (Slot.pend p)).isPend = false := by
  unfold scanSlot
  dsimp only
  rw [if_neg (by simp [hphase])]
  split <;> rfl

/-- A scan step leaves every slot that is not a pending node unchanged
(the scans only look for pending_data nodes in the tree). -/
theorem scanSlot_fixes_non_pend (phase : Phase)
    (g1 g2 : pending_node → Dict) (cfg : Bool)
    (tr : String → CtxData → Dict → Except String String)
    (mr : String → Bool → Except String (List Node × List Node))
    (s : Slot) (hs : s.isPend = false) :
    scanSlot phase g1 g2 cfg tr mr s = s := by
  cases s with
  | pend p => simp [Slot.isPend] at hs
  | rendered r => rfl
  | inlineGroup ns msgs => rfl
  | elem n => rfl

/-- C4: the render chain of a placeholder executes at most once. Once a
scan bound to the phase of the placeholder has rendered it and replaced it
in the document, the slot no longer holds a pending node, and a subsequent
scan bound to any phase, with any generators and renderers, leaves that
slot exactly as the first scan left it. -/
theorem C4_terminal_state (phase1 phase2 : Phase)
    (g1 g2 g1b g2b : pending_node → Dict) (cfg cfgb : Bool)
    (tr trb : String → CtxData → Dict → Except String String)
    (mr mrb : String → Bool → Except String (List Node × List Node))
    (doc : List Slot) (i : Nat) (p : pending_node)
    (hi : doc.get? i = some (Slot.pend p))
    (hphase : p.template.phase = phase1) :
    ∃ s, (scan phase1 g1 g2 cfg tr mr doc).get? i = some s ∧
      s.isPend = false ∧
      (scan phase2 g1b g2b cfgb trb mrb
          (scan phase1 g1 g2 cfg tr mr doc)).get? i = some s := by
  have hs := scanSlot_matched_not_pend phase1 g1 g2 cfg tr mr p hphase
  have h1 : (scan phase1 g1 g2 cfg tr mr doc).get? i
      = some (scanSlot phase1 g1 g2 cfg tr mr (Slot.pend p)) := by
    unfold scan
    rw [List.get?_map, hi]
    rfl
  refine ⟨scanSlot phase1 g1 g2 cfg tr mr (Slot.pend p), h1, hs, ?_⟩
  unfold scan
  rw [List.get?_map]
  unfold scan at h1
  rw [h1]
  dsimp only [Option.map]
  rw [scanSlot_fixes_non_pend phase2 g1b g2b cfgb trb mrb _ hs]

/-- A pending node bound to Phase.Parsed with plain data. -/
def wPendingParsed : pending_node :=
  { data := Sum.inr (CtxData.dict []),
    extra := [], template := { text := "t", phase := .Parsed, debug := false },
    inline := false, children := [], markupTextHooks := [] }

theorem C4_terminal_state_witness :
    ∃ s, (scan .Parsed (fun _ => []) (fun _ => []) false wTmplRender
        wMarkupRender [Slot.pend wPendingParsed]).get? 0 = some s ∧
      s.isPend = false ∧
      (scan .PostTranform (fun _ => []) (fun _ => []) false wTmplRender
          wMarkupRender
          (scan .Parsed (fun _ => []) (fun _ => []) false wTmplRender
            wMarkupRender [Slot.pend wPendingParsed])).get? 0 = some s :=
  C4_terminal_state .Parsed .PostTranform (fun _ => []) (fun _ => [])
    (fun _ => []) (fun _ => []) false false wTmplRender wTmplRender
    wMarkupRender wMarkupRender [Slot.pend wPendingParsed] 0 wPendingParsed
    rfl rfl

/-- The placeholder as a matching scan renders it: the extra context
accumulated first from the checkpoint generator and then from the anytime
generator, each merged first write wins. -/
def scanReadyPending (g1 g2 : pending_node → Dict) (p : pending_node) :
    pending_node :=
  let p1 : pending_node := { p with extra := mergeExtra p.extra (g1 p) }
  { p1 with extra := mergeExtra p1.extra (g2 p1) }

/-- C5: a phase bound scan, for every pending node it finds, first merges
the output of the extra context generator of its checkpoint, regardless of
the phase of the node; then, only when the phase of the template of the
node equals the bound phase, it runs the anytime generator, executes the
render chain and replaces the node (flattened when inline); a node with a
non matching phase stays in the tree as a pending node carrying the
accumulated context. -/
theorem C5_scan_dispatch (phase : Phase) (g1 g2 : pending_node → Dict)
    (cfg : Bool)
    (tr : String → CtxData → Dict → Except String String)
    (mr : String → Bool → Except String (List Node × List Node))
    (p : pending_node) :
    (p.template.phase ≠ phase →
      scanSlot phase g1 g2 cfg tr mr (Slot.pend p)
        = Slot.pend { p with extra := mergeExtra p.extra (g1 p) }) ∧
    (p.template.phase = phase →
      scanSlot phase g1 g2 cfg tr mr (Slot.pend p)
        = if p.inline then
            Slot.inlineGroup
              (rendered_node.inline
                (pending_node.render cfg tr mr (scanReadyPending g1 g2 p))).1
              (rendered_node.inline
                (pending_node.render cfg tr mr (scanReadyPending g1 g2 p))).2
          else
            Slot.rendered
              (pending_node.render cfg tr mr (scanReadyPending g1 g2 p))) := by
  constructor
  · intro hne
    unfold scanSlot
    dsimp only
    rw [if_pos hne]
  · intro heq
    unfold scanSlot
    dsimp only
    rw [if_neg (by simp [heq])]
    rfl

/-- A pending node bound to Phase.Parsing (it is not due at the Parsed
checkpoint). -/
def wPendingImmediate : pending_node :=
  { data := Sum.inr (CtxData.dict []),
    extra := [], template := { text := "t", phase := .Parsing, debug := false },
    inline := false, children := [], markupTextHooks := [] }

theorem C5_scan_dispatch_witness :
    scanSlot .Parsed (fun _ => [("a", Val.n 1)]) (fun _ => []) false
        wTmplRender wMarkupRender (Slot.pend wPendingImmediate)
      = Slot.pend { wPendingImmediate with
          extra := mergeExtra wPendingImmediate.extra [("a", Val.n 1)] } ∧
    scanSlot .Parsed (fun _ => [("a", Val.n 1)]) (fun _ => []) false
        wTmplRender wMarkupRender (Slot.pend wPendingParsed)
      = Slot.rendered
          (pending_node.render false wTmplRender wMarkupRender
            (scanReadyPending (fun _ => [("a", Val.n 1)]) (fun _ => [])
              wPendingParsed)) :=
  ⟨(C5_scan_dispatch .Parsed (fun _ => [("a", Val.n 1)]) (fun _ => []) false
      wTmplRender wMarkupRender wPendingImmediate).1 (by decide),
   (C5_scan_dispatch .Parsed (fun _ => [("a", Val.n 1)]) (fun _ => []) false
      wTmplRender wMarkupRender wPendingParsed).2 rfl⟩

/-! ## Define time dispatch theorem -/

/-- C6: a define time call builds the placeholder from the RawData, Schema
and Template of the authoring surface and returns a fully rendered result
exactly when the phase of the template is the immediate phase
Phase.Parsing; for any other phase it returns the still pending
placeholder and the render chain does not run. -/
theorem C6_render_or_pass_dispatch (raw : RawData) (schema : Schema)
    (tmpl : Template) (inl : Bool) (genP genA : pending_node → Dict)
    (cfg : Bool)
    (tr : String → CtxData → Dict → Except String String)
    (mr : String → Bool → Except String (List Node × List Node)) :
    ((render_or_pass raw schema tmpl inl genP genA cfg tr mr).isRight = true
        ↔ tmpl.phase = Phase.Parsing) ∧
    (tmpl.phase ≠ Phase.Parsing →
      render_or_pass raw schema tmpl inl genP genA cfg tr mr
        = Sum.inl (build_pending_node
            (Sum.inl { raw := raw, schema := schema }) tmpl inl genP)) ∧
    (tmpl.phase = Phase.Parsing →
      render_or_pass raw schema tmpl inl genP genA cfg tr mr
        = Sum.inr (render_pending_node genA cfg tr mr
            (build_pending_node (Sum.inl { raw := raw, schema := schema })
              tmpl inl genP))) := by
  unfold render_or_pass
  dsimp only
  by_cases h : tmpl.phase = Phase.Parsing
  · rw [if_neg (by simp [build_pending_node, h])]
    exact ⟨by simp [Sum.isRight, h], fun hne => absurd h hne, fun _ => rfl⟩
  · rw [if_pos (by simpa [build_pending_node] using h)]
    exact ⟨by simp [Sum.isRight, h], fun _ => rfl, fun heq => absurd heq h⟩

/-- An immediate template for the dispatch witness. -/
def wTmplImmediate : Template := { text := "t", phase := .Parsing, debug := false }

/-- A deferred template for the dispatch witness. -/
def wTmplDeferred : Template := { text := "t", phase := .Parsed, debug := false }

theorem C6_render_or_pass_dispatch_witness :
    render_or_pass wRawNamed wSchemaOk wTmplImmediate false (fun _ => [])
        (fun _ => []) false wTmplRender wMarkupRender
      = Sum.inr (render_pending_node (fun _ => []) false wTmplRender
          wMarkupRender
          (build_pending_node
            (Sum.inl { raw := wRawNamed, schema := wSchemaOk })
            wTmplImmediate false (fun _ => []))) ∧
    render_or_pass wRawNamed wSchemaOk wTmplDeferred false (fun _ => [])
        (fun _ => []) false wTmplRender wMarkupRender
      = Sum.inl (build_pending_node
          (Sum.inl { raw := wRawNamed, schema := wSchemaOk })
          wTmplDeferred false (fun _ => [])) :=
  ⟨(C6_render_or_pass_dispatch wRawNamed wSchemaOk wTmplImmediate false
      (fun _ => []) (fun _ => []) false wTmplRender wMarkupRender).2.2 rfl,
   (C6_render_or_pass_dispatch wRawNamed wSchemaOk wTmplDeferred false
      (fun _ => []) (fun _ => []) false wTmplRender wMarkupRender).2.1
      (by decide)⟩

/-! ## Inline flattening and the markup renderer theorems -/

/-- C7 counterexample: the flatten step of the rendered result does not
unwrap a paragraph. A rendered node holding exactly one paragraph element
flattens to that paragraph itself, not to the children of the paragraph. -/
theorem C7_counterexample :
    rendered_node.inline
        { data := none, children := [Node.paragraph [Node.text "hi"]] }
      = ([Node.paragraph [Node.text "hi"]], []) ∧
    [Node.paragraph [Node.text "hi"]] ≠ ([Node.text "hi"] : List Node) := by
  constructor
  · rfl
  · intro h
    injection h with h1 _
    exact Node.noConfusion h1

/-- C7 amended: the flatten step of a rendered result returns its children
as they are (for children that are not reports); the paragraph unwrapping
lives in the markup renderer instead: when the checkpoint only exposes a
block parser, inline mode is emulated by block parsing the markup text and
unwrapping the children of the first paragraph, so those children, not the
paragraph, are what the render chain receives. -/
theorem C7_amended_inline_unwrap {E : Type}
    (parseBlock : String → Except E (List Node)) (text : String)
    (cs rest : List Node)
    (hp : parseBlock text = .ok (Node.paragraph cs :: rest)) :
    Renderer.render_inline_via_block parseBlock text = cs ∧
    ∀ r : rendered_node, (∀ n ∈ r.children, n.isReport = false) →
      rendered_node.inline r = (r.children, []) := by
  constructor
  · unfold Renderer.render_inline_via_block Renderer.safe_render
    rw [hp]
  · intro r hr
    unfold rendered_node.inline
    have hrep : r.children.filter Node.isReport = [] := by
      rw [List.filter_eq_nil]
      intro n hn
      rw [hr n hn]
      exact Bool.false_ne_true
    have hrest : r.children.filter (fun n => !n.isReport) = r.children := by
      rw [List.filter_eq_self]
      intro n hn
      rw [hr n hn]
      rfl
    rw [hrep, hrest]
    simp

/-- A block parse function whose result is one paragraph followed by a
note, as a block only checkpoint would produce. -/
def wParseBlock : String → Except String (List Node) :=
  fun _ => .ok [Node.paragraph [Node.text "hi"], Node.other "note" []]

theorem C7_amended_inline_unwrap_witness :
    Renderer.render_inline_via_block wParseBlock "x" = [Node.text "hi"] ∧
    rendered_node.inline { data := none, children := [Node.text "a"] }
      = ([Node.text "a"], []) := by
  have h := C7_amended_inline_unwrap wParseBlock "x" [Node.text "hi"]
    [Node.other "note" []] rfl
  exact ⟨h.1, h.2 { data := none, children := [Node.text "a"] }
    (by
      intro n hn
      cases hn with
      | head => rfl
      | tail _ hx => cases hx)⟩

/-- C8: the markup renderer converts failures of the host parser into a
diagnostic instead of propagating them: for every markup text, when the
block or the inline entry point of the host raises, the safe wrappers
return a single error report carrying the failing text; and on inline
success every non fatal system message of the parser is converted to a
warning report entry appended after the returned nodes. -/
theorem C8_parser_errors_become_diagnostics {E : Type}
    (fnB : String → Except E (List Node))
    (fnI : String → Except E (List Node × List Node)) (text : String) :
    (∀ e, fnB text = .error e →
      Renderer.safe_render fnB text
        = [Node.report "Failed to render the follwing text to nodes" "ERROR"
            [text] []]) ∧
    (∀ e, fnI text = .error e →
      Renderer.safe_render_inline fnI text
        = [Node.report "Failed to render the follwing text to inline nodes"
            "ERROR" [text] []]) ∧
    (∀ ns msgs, fnI text = .ok (ns, msgs) →
      Renderer.safe_render_inline fnI text
        = ns ++ msgs.map (fun msg =>
            Node.report "Parser generated message:" "WARNING" []
              msg.childrenOf)) := by
  refine ⟨?_, ?_, ?_⟩
  · intro e he
    unfold Renderer.safe_render
    rw [he]
  · intro e he
    unfold Renderer.safe_render_inline
    rw [he]
  · intro ns msgs hok
    unfold Renderer.safe_render_inline
    rw [hok]

/-- A host parse function that always raises. -/
def wFailingParse : String → Except String (List Node) :=
  fun _ => .error "boom"

/-- An inline host parse function that always raises. -/
def wFailingParseInline : String → Except String (List Node × List Node) :=
  fun _ => .error "boom"

/-- An inline host parse function succeeding with one node and one system
message. -/
def wOkParseInline : String → Except String (List Node × List Node) :=
  fun _ => .ok ([Node.text "ok"], [Node.other "system_message" [Node.text "warn"]])

theorem C8_parser_errors_become_diagnostics_witness :
    Renderer.safe_render wFailingParse "bad text"
      = [Node.report "Failed to render the follwing text to nodes" "ERROR"
          ["bad text"] []] ∧
    Renderer.safe_render_inline wFailingParseInline "bad text"
      = [Node.report "Failed to render the follwing text to inline nodes"
          "ERROR" ["bad text"] []] ∧
    Renderer.safe_render_inline wOkParseInline "good text"
      = [Node.text "ok",
         Node.report "Parser generated message:" "WARNING" []
           [Node.text "warn"]] :=
  ⟨(C8_parser_errors_become_diagnostics wFailingParse wFailingParseInline
      "bad text").1 "boom" rfl,
   (C8_parser_errors_become_diagnostics wFailingParse wFailingParseInline
      "bad text").2.1 "boom" rfl,
   (C8_parser_errors_become_diagnostics wFailingParse wOkParseInline
      "good text").2.2 [Node.text "ok"]
      [Node.other "system_message" [Node.text "warn"]] rfl⟩

end SphinxData
